import Mathlib

/-!
Verification development for the sptools backup/reconciliation tool
(`src/sptools/sptools.py`).

The Python module is shallowly embedded:
* the external Spotify client `sp` (the "Gateway") becomes a structure of
  pure functions describing the account state behind the paged endpoints;
* the TinyDB document store becomes a `DB` structure with two list-valued
  tables, `saved_tracks` and `playlists`;
* the `while True` pagination loops become a fuel-bounded recursion
  (`drainFromFuel`); the fuel `l.length + 1` is shown sufficient whenever the
  page size is positive, which it always is in the source (50 or 100);
* the wall clock (`datetime.datetime.now().isoformat()`) is modelled as an
  explicit timestamp argument to the backup entry points, exactly as the
  source threads `backup_time` through its helpers;
* operations that raise Python exceptions return `none` / have their crash
  represented by an `Option` result;
* the gateway mutations issued by the reconciliation engine are recorded as
  an explicit trace of `GwEvent`s.
-/

/-- A full track record as returned by `sp.track` (only the fields the
program reads: `id`, `name`, `uri`). -/
structure TrackRecord where
  id : String
  name : String
  uri : String
deriving DecidableEq, Repr

/-- One item of `sp.current_user_saved_tracks(...)["items"]`: a wrapper
holding a `track` object. -/
structure SavedItem where
  track : TrackRecord
deriving DecidableEq, Repr

/-- One item of a playlist's `tracks.items`: a wrapper holding a `track`
object. -/
structure PlaylistTrackItem where
  track : TrackRecord
deriving DecidableEq, Repr

/-- Playlist metadata as listed by `sp.current_user_playlists` (fields read
by the source: `id`, `name`, `owner.id`). -/
structure PlaylistMeta where
  id : String
  name : String
  ownerId : String
deriving DecidableEq, Repr

/-- An artist object, of which the program reads only `name`. -/
structure ArtistRec where
  name : String
deriving DecidableEq, Repr

/-- An album object, of which the program reads only `name`. -/
structure AlbumRec where
  name : String
deriving DecidableEq, Repr

/-- The `item` object of a currently-playing payload. -/
structure PlayItem where
  name : String
  artists : List ArtistRec
  album : AlbumRec
deriving DecidableEq, Repr

/-- The raw response of `sp.currently_playing()` when it is not null: an
`item` field (itself nullable) plus further raw fields, represented here by
`is_playing`. -/
structure PlaybackPayload where
  item : Option PlayItem
  is_playing : Bool
deriving DecidableEq, Repr

/-- The Gateway: the account state behind the external Spotify client `sp`.
Paged endpoints are modelled by the full collections they page over;
`trackLookup` returns `none` when `sp.track(id)` would raise. -/
structure Gateway where
  savedTracks : List SavedItem
  playlists : List PlaylistMeta
  playlistName : String → String
  playlistOwner : String → String
  playlistTracks : String → List PlaylistTrackItem
  trackLookup : String → Option TrackRecord
  currentUser : String
  newPlaylistId : String
  currentlyPlaying : Option PlaybackPayload

/-- A record of the `saved_tracks` table: a saved item plus the
`backup_time` field added before insertion (optional so that the
`Query().backup_time.exists()` filter is meaningful). -/
structure SavedTrackRec where
  track : TrackRecord
  backup_time : Option String
deriving DecidableEq, Repr

/-- A record of the `playlists` table: the playlist detail written by
`backup_playlist`, plus the added `backup_time` field. -/
structure PlaylistRec where
  id : String
  name : String
  items : List PlaylistTrackItem
  backup_time : Option String
deriving DecidableEq, Repr

/-- The TinyDB store with its two tables. -/
structure DB where
  saved_tracks : List SavedTrackRec
  playlists : List PlaylistRec
deriving DecidableEq, Repr

def emptyDB : DB := { saved_tracks := [], playlists := [] }

/-! ## Paged collection drain (4.1)

The source loops `while True`, fetching `(limit := P, offset)`, extending the
accumulator with `response["items"]`, adding `P` to `offset`, and breaking
when `response["next"]` is null.  A page at `offset` holds
`l[offset : offset + P]` and `next` is non-null exactly when
`offset + P < l.length`.  The loop is embedded with a fuel bound; the second
component counts the page fetches issued. -/

def drainFromFuel {α : Type} (l : List α) (P : Nat) (offset : Nat) :
    Nat → List α × Nat
  | 0 => ([], 0)
  | fuel + 1 =>
    let items := (l.drop offset).take P
    if offset + P < l.length then
      let rest := drainFromFuel l P (offset + P) fuel
      (items ++ rest.1, rest.2 + 1)
    else
      (items, 1)

/-- The full pagination loop starting at offset 0; `l.length + 1` units of
fuel are enough for any positive page size. -/
def drain {α : Type} (l : List α) (P : Nat) : List α × Nat :=
  drainFromFuel l P 0 (l.length + 1)

/-- `get_saved_tracks`: drains `sp.current_user_saved_tracks` with page size
50. -/
def get_saved_tracks (gw : Gateway) : List SavedItem :=
  (drain gw.savedTracks 50).1

/-- `get_all_playlists`: drains `sp.current_user_playlists` with page size
50. -/
def get_all_playlists (gw : Gateway) : List PlaylistMeta :=
  (drain gw.playlists 50).1

/-- `get_playlist_tracks`: drains `sp.playlist_items` with page size 100. -/
def get_playlist_tracks (gw : Gateway) (playlist_id : String) :
    List PlaylistTrackItem :=
  (drain (gw.playlistTracks playlist_id) 100).1

theorem drainFromFuel_items {α : Type} (l : List α) (P : Nat) (hP : 0 < P) :
    ∀ fuel offset, l.length - offset < fuel →
      (drainFromFuel l P offset fuel).1 = l.drop offset := by
  intro fuel
  induction fuel with
  | zero => intro offset h; omega
  | succ n ih =>
    intro offset h
    by_cases hlt : offset + P < l.length
    · simp only [drainFromFuel, if_pos hlt]
      rw [ih (offset + P) (by omega)]
      have hdd : List.drop (offset + P) l = List.drop P (List.drop offset l) := by
        rw [List.drop_drop, Nat.add_comm]
      rw [hdd, List.take_append_drop]
    · simp only [drainFromFuel, if_neg hlt]
      have hlen : (l.drop offset).length ≤ P := by
        rw [List.length_drop]; omega
      exact List.take_of_length_le hlen

theorem drain_fst {α : Type} (l : List α) (P : Nat) (hP : 0 < P) :
    (drain l P).1 = l := by
  have := drainFromFuel_items l P hP (l.length + 1) 0 (by omega)
  simpa [drain] using this

theorem drain_nil {α : Type} (P : Nat) : drain ([] : List α) P = ([], 1) := by
  simp [drain, drainFromFuel]

/-- C2: for every collection of `N ≥ 0` items paged with page size `P ≥ 1`,
the drain loop returns exactly the `N` items in their original order, and an
empty collection yields exactly one page fetch and an empty result; in
particular `get_saved_tracks` and `get_playlist_tracks` return the full
collections behind their endpoints. -/
theorem paged_drain_returns_all_items {α : Type} (l : List α) (P : Nat)
    (hP : 0 < P) (gw : Gateway) (pid : String) :
    (drain l P).1 = l ∧
    (l = [] → drain l P = ([], 1)) ∧
    get_saved_tracks gw = gw.savedTracks ∧
    get_playlist_tracks gw pid = gw.playlistTracks pid := by
  refine ⟨drain_fst l P hP, ?_, ?_, ?_⟩
  · rintro rfl; exact drain_nil P
  · exact drain_fst gw.savedTracks 50 (by norm_num)
  · exact drain_fst (gw.playlistTracks pid) 100 (by norm_num)

/-! ## Playlist fetch (4.2)

`get_playlist` calls `sp.playlist(playlist_id)`, whose response embeds the
first page (page size 100) of the playlist's tracks; when that page's `next`
is non-null the embedded `items` are replaced by a full drain via
`get_playlist_tracks`. -/

/-- The playlist detail object: metadata plus the `tracks` page
(`tracks.items` and whether `tracks.next` is non-null). -/
structure PlaylistInfo where
  id : String
  name : String
  owner : String
  tracksItems : List PlaylistTrackItem
  tracksNext : Bool
deriving DecidableEq, Repr

/-- The Gateway's `sp.playlist` response: metadata plus the first page (100
items) of the playlist's tracks, with `next` non-null exactly when more
items remain. -/
def sp_playlist (gw : Gateway) (playlist_id : String) : PlaylistInfo :=
  let full := gw.playlistTracks playlist_id
  { id := playlist_id
    name := gw.playlistName playlist_id
    owner := gw.playlistOwner playlist_id
    tracksItems := full.take 100
    tracksNext := decide (100 < full.length) }

/-- `get_playlist`: fetch the playlist detail; when the embedded first page
of tracks is incomplete, replace its `items` with the full drained track
sequence. -/
def get_playlist (gw : Gateway) (playlist_id : String) : PlaylistInfo :=
  let playlist_info := sp_playlist gw playlist_id
  if playlist_info.tracksNext then
    { playlist_info with tracksItems := get_playlist_tracks gw playlist_id }
  else
    playlist_info

/-- Number of `sp.playlist_items` page fetches issued by `get_playlist`:
zero when the embedded page is already complete, otherwise the drain's fetch
count. -/
def get_playlist_track_page_fetches (gw : Gateway) (playlist_id : String) :
    Nat :=
  if (sp_playlist gw playlist_id).tracksNext then
    (drain (gw.playlistTracks playlist_id) 100).2
  else 0

/-- C7: `get_playlist` always returns the complete track listing in
`tracksItems`, and when the embedded first page is already complete
(`next` null) the metadata response is returned as-is with zero extra
track-page fetches. -/
theorem get_playlist_complete_listing (gw : Gateway) (pid : String) :
    (get_playlist gw pid).tracksItems = gw.playlistTracks pid ∧
    ((sp_playlist gw pid).tracksNext = false →
      get_playlist gw pid = sp_playlist gw pid ∧
      get_playlist_track_page_fetches gw pid = 0) := by
  constructor
  · by_cases h : (sp_playlist gw pid).tracksNext
    · simp only [get_playlist, h, if_true]
      exact drain_fst (gw.playlistTracks pid) 100 (by norm_num)
    · simp only [get_playlist, h, if_false]
      have hle : (gw.playlistTracks pid).length ≤ 100 := by
        have := h
        simp only [sp_playlist, decide_eq_true_eq] at this
        omega
      simpa [sp_playlist] using List.take_of_length_le hle
  · intro h
    constructor
    · simp [get_playlist, h]
    · simp [get_playlist_track_page_fetches, h]

/-! ## Current-playback query (4.6)

`get_now_playing` reads `sp.currently_playing()`; with `full` unset it
builds the compact projection by subscripting the payload, which raises when
the payload (or its `item`) is null — modelled by a `none` result. -/

/-- The compact projection built by `get_now_playing(full=False)`: exactly
the three keys `title`, `artists`, `album_name`. -/
structure CompactNowPlaying where
  title : String
  artists : List String
  album_name : String
deriving DecidableEq, Repr

/-- The two output shapes of `get_now_playing`. -/
inductive NowPlayingResult where
  | raw (payload : Option PlaybackPayload)
  | compact (c : CompactNowPlaying)
deriving DecidableEq, Repr

/-- `get_now_playing`: returns the raw payload when `full` is set, else the
compact projection; `none` models the `TypeError` raised when the compact
path subscripts a null payload or a null `item`. -/
def get_now_playing (gw : Gateway) (full : Bool) : Option NowPlayingResult :=
  let currently_playing := gw.currentlyPlaying
  if full = false then
    match currently_playing with
    | none => none
    | some p =>
      match p.item with
      | none => none
      | some it =>
        some (NowPlayingResult.compact
          { title := it.name
            artists := it.artists.map (fun artist => artist.name)
            album_name := it.album.name })
  else
    some (NowPlayingResult.raw currently_playing)

/-- C9: with a current item present, `full = true` returns the raw payload
unchanged and `full = false` returns exactly the compact projection
`{title, artists, album_name}`. -/
theorem now_playing_shapes (gw : Gateway) (p : PlaybackPayload)
    (it : PlayItem) (h1 : gw.currentlyPlaying = some p)
    (h2 : p.item = some it) :
    get_now_playing gw true = some (NowPlayingResult.raw (some p)) ∧
    get_now_playing gw false = some (NowPlayingResult.compact
      { title := it.name
        artists := it.artists.map (fun artist => artist.name)
        album_name := it.album.name }) := by
  constructor
  · simp [get_now_playing, h1]
  · simp [get_now_playing, h1, h2]

/-- Concrete gateway used to witness the current-playback theorems. -/
def gwPlaying : Gateway :=
  { savedTracks := []
    playlists := []
    playlistName := fun _ => ""
    playlistOwner := fun _ => ""
    playlistTracks := fun _ => []
    trackLookup := fun _ => none
    currentUser := "me"
    newPlaylistId := "new"
    currentlyPlaying := some
      { item := some
          { name := "Song"
            artists := [{ name := "A" }, { name := "B" }]
            album := { name := "Album" } }
        is_playing := true } }

/-- Witness for C9 at the spec's example payload
(`item.name = "Song"`, artists `A`, `B`, album `"Album"`). -/
theorem now_playing_shapes_witness :
    get_now_playing gwPlaying true = some (NowPlayingResult.raw (some
      { item := some
          { name := "Song"
            artists := [{ name := "A" }, { name := "B" }]
            album := { name := "Album" } }
        is_playing := true })) ∧
    get_now_playing gwPlaying false = some (NowPlayingResult.compact
      { title := "Song", artists := ["A", "B"], album_name := "Album" }) :=
  now_playing_shapes gwPlaying _ _ rfl rfl

/-- C10: with a null playback payload, the compact path fails (the null
payload would be subscripted) while the full path returns the null payload
unchanged. -/
theorem now_playing_null_payload (gw : Gateway)
    (h : gw.currentlyPlaying = none) :
    get_now_playing gw false = none ∧
    get_now_playing gw true = some (NowPlayingResult.raw none) := by
  constructor
  · simp [get_now_playing, h]
  · simp [get_now_playing, h]

/-- Concrete gateway with nothing playing, for the C10 witness. -/
def gwIdle : Gateway :=
  { gwPlaying with currentlyPlaying := none }

/-- Witness for C10: at a gateway whose playback response is null, the
compact query crashes and the full query returns the null payload. -/
theorem now_playing_null_payload_witness :
    get_now_playing gwIdle false = none ∧
    get_now_playing gwIdle true = some (NowPlayingResult.raw none) :=
  now_playing_null_payload gwIdle rfl

/-- Witness for C2 at a 5-element collection with page size 2 (and the
concrete gateway `gwPlaying`). -/
theorem paged_drain_returns_all_items_witness :
    (0 : Nat) < 2 ∧
    ((drain [10, 20, 30, 40, 50] 2).1 = [10, 20, 30, 40, 50] ∧
     ([10, 20, 30, 40, 50] = ([] : List Nat) →
        drain [10, 20, 30, 40, 50] 2 = ([], 1)) ∧
     get_saved_tracks gwPlaying = gwPlaying.savedTracks ∧
     get_playlist_tracks gwPlaying "p" = gwPlaying.playlistTracks "p") :=
  ⟨by decide,
   paged_drain_returns_all_items [10, 20, 30, 40, 50] 2 (by decide)
     gwPlaying "p"⟩

/-- Witness for C7 at the concrete gateway `gwPlaying`, whose playlist `"p"`
fits in a single page: the metadata response is returned as-is with zero
track-page fetches. -/
theorem get_playlist_complete_listing_witness :
    get_playlist gwPlaying "p" = sp_playlist gwPlaying "p" ∧
    get_playlist_track_page_fetches gwPlaying "p" = 0 :=
  (get_playlist_complete_listing gwPlaying "p").2 (by decide)

/-! ## Backup orchestrator (4.3)

`backup` computes one timestamp and passes it to `backup_saved_tracks` and
`backup_all_playlists`; each write appends a record carrying that timestamp.
The wall clock is modelled as the explicit `backup_time` argument. -/

/-- The snapshot record written for one saved item: the item with the
`backup_time` field set. -/
def savedRecordOf (backup_time : String) (it : SavedItem) : SavedTrackRec :=
  { track := it.track, backup_time := some backup_time }

/-- `backup_saved_tracks`: drain the saved tracks and append each, tagged
with `backup_time`, to the `saved_tracks` table. -/
def backup_saved_tracks (gw : Gateway) (backup_time : String) (db : DB) :
    DB :=
  { db with
    saved_tracks :=
      db.saved_tracks ++ (get_saved_tracks gw).map (savedRecordOf backup_time) }

/-- The record written for one playlist: its full detail from `get_playlist`
with the `backup_time` field set. -/
def playlistRecordOf (gw : Gateway) (backup_time : String)
    (playlist_id : String) : PlaylistRec :=
  let playlist := get_playlist gw playlist_id
  { id := playlist.id
    name := playlist.name
    items := playlist.tracksItems
    backup_time := some backup_time }

/-- `backup_playlist`: fetch the playlist's full detail and append it,
tagged with `backup_time`, to the `playlists` table. -/
def backup_playlist (gw : Gateway) (playlist_id : String)
    (backup_time : String) (db : DB) : DB :=
  { db with
    playlists := db.playlists ++ [playlistRecordOf gw backup_time playlist_id] }

/-- `backup_all_playlists`: walk all playlist metadata, skip playlists not
owned by the current user when `only_mine` is set, and back up each retained
playlist. -/
def backup_all_playlists (gw : Gateway) (only_mine : Bool)
    (backup_time : String) (db : DB) : DB :=
  (get_all_playlists gw).foldl
    (fun d pl =>
      if only_mine && (pl.ownerId != gw.currentUser) then d
      else backup_playlist gw pl.id backup_time d)
    db

/-- `backup`: compute one timestamp (here: receive it as `backup_time`) and
run both table backups with it. -/
def backup (gw : Gateway) (only_mine : Bool) (backup_time : String)
    (db : DB) : DB :=
  backup_all_playlists gw only_mine backup_time
    (backup_saved_tracks gw backup_time db)

/-- The playlist records one run of `backup_all_playlists` appends. -/
def playlists_written (gw : Gateway) (only_mine : Bool)
    (backup_time : String) : List PlaylistRec :=
  ((get_all_playlists gw).filter
      (fun pl => !(only_mine && (pl.ownerId != gw.currentUser)))).map
    (fun pl => playlistRecordOf gw backup_time pl.id)

theorem backup_all_playlists_foldl (gw : Gateway) (only_mine : Bool)
    (backup_time : String) :
    ∀ (pls : List PlaylistMeta) (db : DB),
      pls.foldl
        (fun d pl =>
          if only_mine && (pl.ownerId != gw.currentUser) then d
          else backup_playlist gw pl.id backup_time d)
        db =
      { db with
        playlists := db.playlists ++
          (pls.filter
              (fun pl => !(only_mine && (pl.ownerId != gw.currentUser)))).map
            (fun pl => playlistRecordOf gw backup_time pl.id) } := by
  intro pls
  induction pls with
  | nil => intro db; simp
  | cons pl rest ih =>
    intro db
    simp only [List.foldl_cons, List.filter_cons]
    by_cases h : (only_mine && (pl.ownerId != gw.currentUser)) = true
    · rw [if_pos h, ih, if_neg (by simp [h])]
    · rw [if_neg h, ih, if_pos (by simp [Bool.eq_false_iff.mpr h])]
      simp [backup_playlist]

theorem backup_tables (gw : Gateway) (only_mine : Bool)
    (backup_time : String) (db : DB) :
    (backup gw only_mine backup_time db).saved_tracks =
      db.saved_tracks ++ (get_saved_tracks gw).map (savedRecordOf backup_time) ∧
    (backup gw only_mine backup_time db).playlists =
      db.playlists ++ playlists_written gw only_mine backup_time := by
  unfold backup backup_all_playlists
  rw [backup_all_playlists_foldl]
  exact ⟨rfl, rfl⟩

/-- C4: one `backup` run appends, to both tables, exactly records carrying
the single timestamp computed at invocation start; no record written by the
run carries any other `backup_time`. -/
theorem backup_single_timestamp (gw : Gateway) (only_mine : Bool)
    (t : String) (db : DB) :
    (backup gw only_mine t db).saved_tracks =
      db.saved_tracks ++ (get_saved_tracks gw).map (savedRecordOf t) ∧
    (backup gw only_mine t db).playlists =
      db.playlists ++ playlists_written gw only_mine t ∧
    (∀ r ∈ (get_saved_tracks gw).map (savedRecordOf t),
      r.backup_time = some t) ∧
    (∀ p ∈ playlists_written gw only_mine t, p.backup_time = some t) := by
  obtain ⟨hs, hp⟩ := backup_tables gw only_mine t db
  refine ⟨hs, hp, ?_, ?_⟩
  · intro r hr
    obtain ⟨it, _, rfl⟩ := List.mem_map.mp hr
    rfl
  · intro p hp2
    obtain ⟨pl, _, rfl⟩ := List.mem_map.mp hp2
    rfl

/-- C8: backup writes are append-only — the pre-existing records of both
tables survive a run verbatim as a prefix — and two runs over the same
account state, starting from an empty store, double the saved-track record
count, each run's appended records carrying that run's own timestamp. -/
theorem backup_append_only (gw : Gateway) (only_mine : Bool)
    (t1 t2 : String) (db : DB) :
    (backup gw only_mine t1 db).saved_tracks.take db.saved_tracks.length =
      db.saved_tracks ∧
    (backup gw only_mine t1 db).playlists.take db.playlists.length =
      db.playlists ∧
    (backup gw only_mine t2 (backup gw only_mine t1 emptyDB)).saved_tracks.length =
      2 * (backup gw only_mine t1 emptyDB).saved_tracks.length ∧
    (∀ r ∈ (backup gw only_mine t2
        (backup gw only_mine t1 emptyDB)).saved_tracks.take
          (get_saved_tracks gw).length,
      r.backup_time = some t1) ∧
    (∀ r ∈ (backup gw only_mine t2
        (backup gw only_mine t1 emptyDB)).saved_tracks.drop
          (get_saved_tracks gw).length,
      r.backup_time = some t2) := by
  obtain ⟨hs1, hp1⟩ := backup_tables gw only_mine t1 db
  obtain ⟨hs0, _⟩ := backup_tables gw only_mine t1 emptyDB
  obtain ⟨hs2, _⟩ :=
    backup_tables gw only_mine t2 (backup gw only_mine t1 emptyDB)
  have hlen0 : (backup gw only_mine t1 emptyDB).saved_tracks.length =
      (get_saved_tracks gw).length := by
    rw [hs0]; simp [emptyDB]
  refine ⟨?_, ?_, ?_, ?_, ?_⟩
  · rw [hs1, List.take_left]
  · rw [hp1, List.take_left]
  · rw [hs2, List.length_append, hlen0, List.length_map]
    omega
  · intro r hr
    rw [hs2, hs0] at hr
    simp only [emptyDB, List.nil_append] at hr
    rw [List.take_left' (by simp)] at hr
    obtain ⟨it, _, rfl⟩ := List.mem_map.mp hr
    rfl
  · intro r hr
    rw [hs2, hs0] at hr
    simp only [emptyDB, List.nil_append] at hr
    rw [List.drop_left' (by simp)] at hr
    obtain ⟨it, _, rfl⟩ := List.mem_map.mp hr
    rfl

/-! ## Most-recent-backup-time resolver (4.4)

`get_most_recent_backup_time` takes `max(...)` of the `backup_time` values
of all `saved_tracks` records that carry that field; Python's `max` raises
`ValueError` on an empty iterable, modelled by a `none` result.  `py_max`
mirrors `max`: keep the current candidate unless the next value is strictly
greater. -/

def py_max_step (m y : String) : String := if m.data < y.data then y else m

def py_max : List String → Option String
  | [] => none
  | x :: xs => some (xs.foldl py_max_step x)

theorem py_max_step_left (m y : String) :
    m.data ≤ (py_max_step m y).data := by
  unfold py_max_step
  split
  · next h => exact le_of_lt h
  · exact le_refl m.data

theorem py_max_step_right (m y : String) :
    y.data ≤ (py_max_step m y).data := by
  unfold py_max_step
  split
  · exact le_refl y.data
  · next h => exact le_of_not_lt h

theorem py_max_step_mem (m y : String) :
    py_max_step m y = m ∨ py_max_step m y = y := by
  unfold py_max_step
  split
  · exact Or.inr rfl
  · exact Or.inl rfl

theorem py_max_fold_mem (xs : List String) :
    ∀ x, xs.foldl py_max_step x ∈ x :: xs := by
  induction xs with
  | nil => intro x; simp
  | cons y ys ih =>
    intro x
    rw [List.foldl_cons]
    rcases List.mem_cons.mp (ih (py_max_step x y)) with h | h
    · rcases py_max_step_mem x y with h2 | h2 <;> rw [h, h2] <;> simp
    · simp [List.mem_cons, h]

theorem py_max_fold_ge (xs : List String) :
    ∀ x, x.data ≤ (xs.foldl py_max_step x).data ∧
      ∀ y ∈ xs, y.data ≤ (xs.foldl py_max_step x).data := by
  induction xs with
  | nil => intro x; exact ⟨le_refl x.data, by simp⟩
  | cons y ys ih =>
    intro x
    rw [List.foldl_cons]
    obtain ⟨h1, h2⟩ := ih (py_max_step x y)
    refine ⟨le_trans (py_max_step_left x y) h1, ?_⟩
    intro z hz
    rcases List.mem_cons.mp hz with hzy | hz
    · rw [hzy]
      exact le_trans (py_max_step_right x y) h1
    · exact h2 z hz

/-- `get_most_recent_backup_time`: the maximum `backup_time` among the
`saved_tracks` records carrying that field (`Query().backup_time.exists()`);
`none` models the `ValueError` raised on an empty aggregate.  The source's
`fromisoformat`/`isoformat` round trip on the result is elided: the value is
kept as its ISO-8601 string. -/
def get_most_recent_backup_time (db : DB) : Option String :=
  py_max (db.saved_tracks.filterMap (fun r => r.backup_time))

/-- C3: the resolver fails exactly on a store with no `backup_time`-carrying
record, and otherwise returns a value that is among the stored backup times
and lexicographically maximal (character-list order on the strings). -/
theorem most_recent_backup_time_spec (db : DB) :
    (db.saved_tracks.filterMap (fun r => r.backup_time) = [] →
      get_most_recent_backup_time db = none) ∧
    (db.saved_tracks.filterMap (fun r => r.backup_time) ≠ [] →
      ∃ m, get_most_recent_backup_time db = some m) ∧
    ∀ m, get_most_recent_backup_time db = some m →
      m ∈ db.saved_tracks.filterMap (fun r => r.backup_time) ∧
      ∀ t ∈ db.saved_tracks.filterMap (fun r => r.backup_time),
        t.data ≤ m.data := by
  refine ⟨?_, ?_, ?_⟩
  · intro h
    unfold get_most_recent_backup_time
    rw [h]
    rfl
  · intro h
    unfold get_most_recent_backup_time
    cases hts : db.saved_tracks.filterMap (fun r => r.backup_time) with
    | nil => exact absurd hts h
    | cons x xs => exact ⟨xs.foldl py_max_step x, rfl⟩
  · intro m hm
    unfold get_most_recent_backup_time at hm
    cases hts : db.saved_tracks.filterMap (fun r => r.backup_time) with
    | nil => rw [hts] at hm; exact absurd hm (by simp [py_max])
    | cons x xs =>
      rw [hts] at hm
      simp only [py_max, Option.some.injEq] at hm
      subst hm
      obtain ⟨h1, h2⟩ := py_max_fold_ge xs x
      refine ⟨py_max_fold_mem xs x, ?_⟩
      intro t ht
      rcases List.mem_cons.mp ht with htx | ht
      · rw [htx]
        exact h1
      · exact h2 t ht

/-! ## Concrete fixtures for witnesses -/

/-- A concrete track record with the given id. -/
def trk (i : String) : TrackRecord :=
  { id := i, name := "Track " ++ i, uri := "spotify:track:" ++ i }

/-- A store holding two backed-up saved tracks with distinct timestamps. -/
def dbTwo : DB :=
  { saved_tracks :=
      [ { track := trk "1", backup_time := some "2023-01-01T00:00:00" },
        { track := trk "2", backup_time := some "2023-06-01T00:00:00" } ]
    playlists := [] }

/-- Witness for C3 at `dbTwo`: among the two stored timestamps the resolver
returns the later, which bounds both. -/
theorem most_recent_backup_time_spec_witness :
    "2023-06-01T00:00:00" ∈
      dbTwo.saved_tracks.filterMap (fun r => r.backup_time) ∧
    ∀ t ∈ dbTwo.saved_tracks.filterMap (fun r => r.backup_time),
      t.data ≤ ("2023-06-01T00:00:00" : String).data :=
  (most_recent_backup_time_spec dbTwo).2.2 "2023-06-01T00:00:00" (by decide)

/-- A concrete gateway with two saved tracks and one playlist. -/
def gwTwo : Gateway :=
  { savedTracks := [⟨trk "1"⟩, ⟨trk "2"⟩]
    playlists := [{ id := "p1", name := "P1", ownerId := "me" }]
    playlistName := fun _ => "P1"
    playlistOwner := fun _ => "me"
    playlistTracks := fun _ => [⟨trk "2"⟩]
    trackLookup := fun i => some (trk i)
    currentUser := "me"
    newPlaylistId := "np"
    currentlyPlaying := none }

/-- Witness for C4 at `gwTwo`: the record appended for saved track `"1"` by
a run timestamped `"T"` carries exactly `backup_time = "T"`. -/
theorem backup_single_timestamp_witness :
    (savedRecordOf "T" ⟨trk "1"⟩).backup_time = some "T" :=
  (backup_single_timestamp gwTwo false "T" emptyDB).2.2.1
    (savedRecordOf "T" ⟨trk "1"⟩) (by decide)

/-- Witness for C8 at `gwTwo`: two runs from an empty store double the
saved-track count, and a record of the first run's block still carries the
first run's timestamp. -/
theorem backup_append_only_witness :
    (backup gwTwo false "B" (backup gwTwo false "A" emptyDB)).saved_tracks.length =
      2 * (backup gwTwo false "A" emptyDB).saved_tracks.length ∧
    (savedRecordOf "A" ⟨trk "1"⟩).backup_time = some "A" :=
  ⟨(backup_append_only gwTwo false "A" "B" emptyDB).2.2.1,
   (backup_append_only gwTwo false "A" "B" emptyDB).2.2.2.1
     (savedRecordOf "A" ⟨trk "1"⟩) (by decide)⟩

/-! ## Reconciliation engine (4.5)

`make_playlist_with_liked_but_not_playlisted_tracks` resolves the latest
`backup_time`, selects both tables' records at that timestamp, builds the
two Python id-sets, takes their difference, fetches each remaining id's
track individually, then creates the playlist and adds the collected URIs.
Python's growing `set`s are modelled as duplicate-free lists built by
first-seen insertion (`pySetInsert`); the claims about them are stated at
the level of the underlying `Finset`s, matching the set semantics.  The
gateway calls issued are recorded as a `GwEvent` trace and the Python
exception raised by a failed `sp.track` lookup is modelled by a `none`
result that truncates the trace. -/

/-- One gateway mutation/lookup call issued by the reconciliation engine. -/
inductive GwEvent where
  | fetchTrack (id : String)
  | createPlaylist (user : String) (name : String)
  | addItems (playlist_id : String) (uris : List String)
deriving DecidableEq, Repr

/-- `saved_tracks_table.search(Query().backup_time == backup_time)`. -/
def saved_tracks_at (db : DB) (bt : String) : List SavedTrackRec :=
  db.saved_tracks.filter (fun r => decide (r.backup_time = some bt))

/-- `playlists_table.search(Query().backup_time == backup_time)`. -/
def playlists_at (db : DB) (bt : String) : List PlaylistRec :=
  db.playlists.filter (fun p => decide (p.backup_time = some bt))

/-- Python `set.add`: keep the collection duplicate-free, first occurrence
wins. -/
def pySetInsert (s : List String) (x : String) : List String :=
  if x ∈ s then s else s ++ [x]

/-- The `playlist_track_ids` set: every `track.id` of every track item of
every selected playlist. -/
def playlist_track_ids (db : DB) (bt : String) : List String :=
  (playlists_at db bt).foldl
    (fun s p => p.items.foldl (fun s2 it => pySetInsert s2 it.track.id) s) []

/-- The `saved_track_ids` set: the `track.id` of every selected saved
track. -/
def saved_track_ids (db : DB) (bt : String) : List String :=
  (saved_tracks_at db bt).foldl (fun s r => pySetInsert s r.track.id) []

/-- `track_ids_to_add = saved_track_ids - playlist_track_ids`. -/
def track_ids_to_add (db : DB) (bt : String) : List String :=
  (saved_track_ids db bt).filter
    (fun i => decide (i ∉ playlist_track_ids db bt))

/-- The per-id lookup loop: for each id call `sp.track`, collecting URIs and
track records; a failed lookup raises, aborting with the trace so far. -/
def fetchTracksLoop (gw : Gateway) :
    List String → List GwEvent × Option (List String × List TrackRecord)
  | [] => ([], some ([], []))
  | id :: rest =>
    match gw.trackLookup id with
    | none => ([GwEvent.fetchTrack id], none)
    | some track =>
      match fetchTracksLoop gw rest with
      | (evs, none) => (GwEvent.fetchTrack id :: evs, none)
      | (evs, some (uris, tracks)) =>
        (GwEvent.fetchTrack id :: evs,
         some (track.uri :: uris, track :: tracks))

/-- The reconciliation operation: the trace of gateway calls it issues and
its return value (`none` models an exception aborting the run). -/
def make_playlist_with_liked_but_not_playlisted_tracks (gw : Gateway)
    (db : DB) : List GwEvent × Option (List TrackRecord) :=
  match get_most_recent_backup_time db with
  | none => ([], none)
  | some backup_time =>
    match fetchTracksLoop gw (track_ids_to_add db backup_time) with
    | (evs, none) => (evs, none)
    | (evs, some (uris, tracks)) =>
      (evs ++
        [GwEvent.createPlaylist gw.currentUser
          ("Liked but not playlisted " ++ backup_time),
         GwEvent.addItems gw.newPlaylistId uris],
       some tracks)

theorem pySetInsert_toFinset (s : List String) (x : String) :
    (pySetInsert s x).toFinset = insert x s.toFinset := by
  unfold pySetInsert
  split
  · next h => exact (Finset.insert_eq_self.mpr (List.mem_toFinset.mpr h)).symm
  · rw [List.toFinset_append]
    simp [Finset.insert_eq, Finset.union_comm]

theorem foldl_pySetInsert_toFinset (l : List String) :
    ∀ init : List String,
      (l.foldl pySetInsert init).toFinset = init.toFinset ∪ l.toFinset := by
  induction l with
  | nil => intro init; simp
  | cons x xs ih =>
    intro init
    rw [List.foldl_cons, ih, pySetInsert_toFinset]
    ext a
    simp only [Finset.mem_union, Finset.mem_insert, List.mem_toFinset,
      List.mem_cons]
    tauto

theorem saved_track_ids_toFinset (db : DB) (bt : String) :
    (saved_track_ids db bt).toFinset =
      ((saved_tracks_at db bt).map (fun r => r.track.id)).toFinset := by
  unfold saved_track_ids
  rw [← List.foldl_map, foldl_pySetInsert_toFinset]
  simp

theorem playlist_track_ids_toFinset (db : DB) (bt : String) :
    (playlist_track_ids db bt).toFinset =
      ((playlists_at db bt).flatMap
        (fun p => p.items.map (fun it => it.track.id))).toFinset := by
  unfold playlist_track_ids
  generalize playlists_at db bt = pls
  suffices h : ∀ (pls : List PlaylistRec) (init : List String),
      (pls.foldl
        (fun s p => p.items.foldl (fun s2 it => pySetInsert s2 it.track.id) s)
        init).toFinset =
      init.toFinset ∪
        (pls.flatMap (fun p => p.items.map (fun it => it.track.id))).toFinset by
    rw [h pls []]
    simp
  intro pls
  induction pls with
  | nil => intro init; simp
  | cons p ps ih =>
    intro init
    rw [List.foldl_cons, ih, ← List.foldl_map, foldl_pySetInsert_toFinset]
    ext a
    simp only [Finset.mem_union, List.mem_toFinset, List.flatMap_cons,
      List.mem_append, List.mem_flatMap]
    tauto

theorem track_ids_to_add_toFinset (db : DB) (bt : String) :
    (track_ids_to_add db bt).toFinset =
      (saved_track_ids db bt).toFinset \ (playlist_track_ids db bt).toFinset := by
  unfold track_ids_to_add
  ext a
  simp only [List.mem_toFinset, List.mem_filter, Finset.mem_sdiff,
    decide_eq_true_eq]

theorem fetchTracksLoop_success (gw : Gateway) :
    ∀ ids : List String, (∀ id ∈ ids, (gw.trackLookup id).isSome) →
      fetchTracksLoop gw ids =
        (ids.map GwEvent.fetchTrack,
         some ((ids.filterMap gw.trackLookup).map (fun t => t.uri),
               ids.filterMap gw.trackLookup)) := by
  intro ids
  induction ids with
  | nil => intro _; rfl
  | cons id rest ih =>
    intro h
    obtain ⟨tr, htr⟩ :=
      Option.isSome_iff_exists.mp (h id (List.mem_cons_self id rest))
    have hrest := ih (fun i hi => h i (List.mem_cons_of_mem id hi))
    simp only [fetchTracksLoop, htr, hrest]
    simp [List.filterMap_cons, htr]

theorem fetchTracksLoop_failure (gw : Gateway) :
    ∀ ids : List String, (∃ id ∈ ids, gw.trackLookup id = none) →
      (fetchTracksLoop gw ids).2 = none := by
  intro ids
  induction ids with
  | nil => rintro ⟨i, hi, _⟩; simp at hi
  | cons id rest ih =>
    rintro ⟨i, hi, hnone⟩
    rcases List.mem_cons.mp hi with hix | hir
    · subst hix
      simp [fetchTracksLoop, hnone]
    · cases hl : gw.trackLookup id with
      | none => simp [fetchTracksLoop, hl]
      | some tr =>
        have hrec2 := ih ⟨i, hir, hnone⟩
        rcases hrec : fetchTracksLoop gw rest with ⟨evs, res⟩
        rw [hrec] at hrec2
        simp only [fetchTracksLoop, hl, hrec]
        cases res with
        | none => simp
        | some v => exact absurd hrec2 (by simp)

theorem fetchTracksLoop_events (gw : Gateway) :
    ∀ ids : List String, ∀ e ∈ (fetchTracksLoop gw ids).1,
      ∃ i, e = GwEvent.fetchTrack i := by
  intro ids
  induction ids with
  | nil => intro e he; simp [fetchTracksLoop] at he
  | cons id rest ih =>
    intro e he
    cases hl : gw.trackLookup id with
    | none =>
      simp only [fetchTracksLoop, hl] at he
      simp only [List.mem_singleton] at he
      exact ⟨id, he⟩
    | some tr =>
      rcases hrec : fetchTracksLoop gw rest with ⟨evs, res⟩
      simp only [fetchTracksLoop, hl, hrec] at he
      have hevs : ∀ e ∈ evs, ∃ i, e = GwEvent.fetchTrack i := by
        intro e2 he2
        exact ih e2 (by rw [hrec]; exact he2)
      cases res with
      | none =>
        rcases List.mem_cons.mp he with h | h
        · exact ⟨id, h⟩
        · exact hevs e h
      | some v =>
        rcases v with ⟨uris, tracks⟩
        simp only [List.mem_cons] at he
        rcases he with h | h
        · exact ⟨id, h⟩
        · exact hevs e h

/-- C1: at the resolved snapshot timestamp, the reconciliation computes
`D = B − A` with set semantics — `B` the ids of the selected saved-track
records, `A` the ids in any track item of any selected playlist — and its
output returns exactly the tracks fetched for the ids of `D`, the single
add-items call carrying exactly those tracks' URIs. -/
theorem reconciliation_set_difference (gw : Gateway) (db : DB) (bt : String)
    (h1 : get_most_recent_backup_time db = some bt)
    (h2 : ∀ id ∈ track_ids_to_add db bt, (gw.trackLookup id).isSome) :
    (saved_track_ids db bt).toFinset =
      ((saved_tracks_at db bt).map (fun r => r.track.id)).toFinset ∧
    (playlist_track_ids db bt).toFinset =
      ((playlists_at db bt).flatMap
        (fun p => p.items.map (fun it => it.track.id))).toFinset ∧
    (track_ids_to_add db bt).toFinset =
      ((saved_tracks_at db bt).map (fun r => r.track.id)).toFinset \
        ((playlists_at db bt).flatMap
          (fun p => p.items.map (fun it => it.track.id))).toFinset ∧
    make_playlist_with_liked_but_not_playlisted_tracks gw db =
      ((track_ids_to_add db bt).map GwEvent.fetchTrack ++
        [GwEvent.createPlaylist gw.currentUser
          ("Liked but not playlisted " ++ bt),
         GwEvent.addItems gw.newPlaylistId
           (((track_ids_to_add db bt).filterMap gw.trackLookup).map
             (fun t => t.uri))],
       some ((track_ids_to_add db bt).filterMap gw.trackLookup)) := by
  refine ⟨saved_track_ids_toFinset db bt, playlist_track_ids_toFinset db bt,
    ?_, ?_⟩
  · rw [track_ids_to_add_toFinset, saved_track_ids_toFinset,
      playlist_track_ids_toFinset]
  · simp only [make_playlist_with_liked_but_not_playlisted_tracks, h1,
      fetchTracksLoop_success gw (track_ids_to_add db bt) h2]

/-- C5: when the difference `D` is empty, the operation still issues the
playlist-creation call, follows it with an add-items call carrying zero
URIs, and returns the empty list — it does not short-circuit. -/
theorem reconciliation_empty_difference (gw : Gateway) (db : DB)
    (bt : String) (h1 : get_most_recent_backup_time db = some bt)
    (h2 : track_ids_to_add db bt = []) :
    make_playlist_with_liked_but_not_playlisted_tracks gw db =
      ([GwEvent.createPlaylist gw.currentUser
          ("Liked but not playlisted " ++ bt),
        GwEvent.addItems gw.newPlaylistId []],
       some []) := by
  simp only [make_playlist_with_liked_but_not_playlisted_tracks, h1, h2,
    fetchTracksLoop]
  simp

/-- C6: when `sp.track` fails for some id of `D`, the whole operation
aborts: its result is the exception (`none`) and its trace consists of
track-lookup calls only — no playlist creation, no add-items call. -/
theorem reconciliation_aborts_on_lookup_failure (gw : Gateway) (db : DB)
    (bt : String) (i : String)
    (h1 : get_most_recent_backup_time db = some bt)
    (h2 : i ∈ track_ids_to_add db bt)
    (h3 : gw.trackLookup i = none) :
    (make_playlist_with_liked_but_not_playlisted_tracks gw db).2 = none ∧
    ∀ e ∈ (make_playlist_with_liked_but_not_playlisted_tracks gw db).1,
      ∃ j, e = GwEvent.fetchTrack j := by
  have hfail := fetchTracksLoop_failure gw (track_ids_to_add db bt)
    ⟨i, h2, h3⟩
  have hevs := fetchTracksLoop_events gw (track_ids_to_add db bt)
  simp only [make_playlist_with_liked_but_not_playlisted_tracks, h1]
  rcases hrec : fetchTracksLoop gw (track_ids_to_add db bt) with ⟨evs, res⟩
  rw [hrec] at hfail hevs
  cases res with
  | none => exact ⟨rfl, hevs⟩
  | some v => exact absurd hfail (by simp)

/-- Store for the C1 witness: saved tracks 1–4 and one playlist holding
tracks 2 and 4, all at timestamp `"t"` (the spec's reconciliation
example). -/
def dbRec : DB :=
  { saved_tracks :=
      [ { track := trk "1", backup_time := some "t" },
        { track := trk "2", backup_time := some "t" },
        { track := trk "3", backup_time := some "t" },
        { track := trk "4", backup_time := some "t" } ]
    playlists :=
      [ { id := "p1", name := "P1", items := [⟨trk "2"⟩, ⟨trk "4"⟩],
          backup_time := some "t" } ] }

/-- Witness for C1 at `dbRec`/`gwTwo`: the computed difference is exactly
`{1, 3}` and the operation fetches, returns and adds exactly those two
tracks. -/
theorem reconciliation_set_difference_witness :
    (make_playlist_with_liked_but_not_playlisted_tracks gwTwo dbRec =
      ((track_ids_to_add dbRec "t").map GwEvent.fetchTrack ++
        [GwEvent.createPlaylist gwTwo.currentUser
          ("Liked but not playlisted " ++ "t"),
         GwEvent.addItems gwTwo.newPlaylistId
           (((track_ids_to_add dbRec "t").filterMap gwTwo.trackLookup).map
             (fun t => t.uri))],
       some ((track_ids_to_add dbRec "t").filterMap gwTwo.trackLookup))) ∧
    track_ids_to_add dbRec "t" = ["1", "3"] :=
  ⟨(reconciliation_set_difference gwTwo dbRec "t" (by decide)
      (by decide)).2.2.2,
   by decide⟩

/-- Store for the C5 witness: both saved tracks also sit in the snapshot's
playlist, so the difference is empty. -/
def dbFull : DB :=
  { saved_tracks :=
      [ { track := trk "1", backup_time := some "t" },
        { track := trk "2", backup_time := some "t" } ]
    playlists :=
      [ { id := "p1", name := "P1", items := [⟨trk "1"⟩, ⟨trk "2"⟩],
          backup_time := some "t" } ] }

/-- Witness for C5 at `dbFull`/`gwTwo`: full overlap still creates the
playlist, adds zero URIs and returns the empty list. -/
theorem reconciliation_empty_difference_witness :
    make_playlist_with_liked_but_not_playlisted_tracks gwTwo dbFull =
      ([GwEvent.createPlaylist gwTwo.currentUser
          ("Liked but not playlisted " ++ "t"),
        GwEvent.addItems gwTwo.newPlaylistId []],
       some []) :=
  reconciliation_empty_difference gwTwo dbFull "t" (by decide) (by decide)

/-- Gateway whose `sp.track` always raises, for the C6 witness. -/
def gwFail : Gateway :=
  { gwTwo with trackLookup := fun _ => none }

/-- Witness for C6 at `dbRec`/`gwFail`: the failed lookup of id `"1"`
aborts the run with a trace of lookup calls only. -/
theorem reconciliation_aborts_on_lookup_failure_witness :
    (make_playlist_with_liked_but_not_playlisted_tracks gwFail dbRec).2 =
      none ∧
    ∀ e ∈ (make_playlist_with_liked_but_not_playlisted_tracks gwFail dbRec).1,
      ∃ j, e = GwEvent.fetchTrack j :=
  reconciliation_aborts_on_lookup_failure gwFail dbRec "t" "1" (by decide)
    (by decide) rfl
